import Mathlib

/-!
# SmartPill backend — shallow embedding and verification

This file embeds the core of the SmartPill backend (`main.py`, `schemas.py`)
in Lean 4 and proves properties of today's-dose resolution, take/snooze
upserts, the voice-intent handler and the 30-day compliance calendar.

Modelling conventions:
* All instants are UTC.  A Python `datetime` is modelled as a day number
  (days since 1970-01-01, an `Int`) plus the second-of-day (a `Nat`);
  `astimezone(timezone.utc)` is the identity in this all-UTC model.
* ISO-8601 timestamps of UTC datetimes compare lexicographically exactly as
  the instants compare chronologically, and their date prefix equals the
  day component; the `scheduled_at` ISO strings of the source are therefore
  modelled by the instants themselves, with string comparison modelled by
  chronological comparison and `startswith(today)` by day equality.
  `datetime.fromisoformat` of such a string is the identity.
* Python `list.sort` is a stable sort by key; any stable sort by the same
  key computes the same list, so it is modelled by a stable insertion sort.
* MongoDB `find` is modelled by filtering a list of documents in natural
  order, `find_one` by `List.find?`, and `update_one(..., upsert=True)` by
  updating the first matching document, else appending the new one.
* Python exceptions (the uncaught `ValueError` that `datetime.replace`
  raises on an out-of-range hour or minute) are modelled with `Except`.
* The HTTP layer, CORS and database configuration are out of scope, as the
  specification treats them as external plumbing.
-/

set_option maxHeartbeats 1000000

namespace SmartPill

/-- A UTC instant: `day` counts calendar days since 1970-01-01 (a Thursday),
`sec` is the second of the day.  Models a Python `datetime` in UTC. -/
structure PyDateTime where
  day : Int
  sec : Nat
deriving DecidableEq

/-- `now.weekday()`: Monday = 0 ... Sunday = 6.  Day 0 (1970-01-01) was a
Thursday, hence the offset 3.  `%` on `Int` is Euclidean, as in Python. -/
def pyWeekday (dt : PyDateTime) : Int :=
  (dt.day + 3) % 7

/-- `dt - timedelta(days=n)`: shifts the date, keeps the time of day. -/
def pySubDays (dt : PyDateTime) (n : Int) : PyDateTime :=
  { day := dt.day - n, sec := dt.sec }

/-- `dt + timedelta(minutes=m)`, renormalised so that `0 ≤ sec < 86400`,
exactly as Python normalises datetime arithmetic. -/
def pyAddMinutes (dt : PyDateTime) (m : Int) : PyDateTime :=
  { day := Int.fdiv (dt.day * 86400 + (dt.sec : Int) + m * 60) 86400,
    sec := (Int.emod (dt.day * 86400 + (dt.sec : Int) + m * 60) 86400).toNat }

/-- Characters stripped by Python `str.strip()` / ignored by `int()`. -/
def isSpaceChar (c : Char) : Bool :=
  c == ' ' || c == '\t' || c == '\n' || c == '\r' || c == '\x0b' || c == '\x0c'

/-- ASCII lower-casing, as `str.lower()` acts on the ASCII range (all the
keyword matching in the source is ASCII). -/
def asciiLower (c : Char) : Char :=
  if 65 ≤ c.toNat && c.toNat ≤ 90 then Char.ofNat (c.toNat + 32) else c

/-- `text.lower().strip()`, the normalisation applied to voice commands. -/
def pyNormalize (s : String) : String :=
  String.mk (((s.data.map asciiLower).dropWhile isSpaceChar).reverse.dropWhile isSpaceChar |>.reverse)

/-- Does `pat` occur at the head of `l`? (helper for substring search). -/
def startsList : List Char → List Char → Bool
  | _, [] => true
  | [], _ :: _ => false
  | a :: as, b :: bs => a == b && startsList as bs

/-- Does `pat` occur anywhere in `l`? -/
def subList (pat : List Char) : List Char → Bool
  | [] => startsList [] pat
  | a :: xs => startsList (a :: xs) pat || subList pat xs

/-- Python's `pat in s` substring test. -/
def strContains (s pat : String) : Bool :=
  subList pat.data s.data

/-- Decimal digit run to a number; fails on a non-digit. -/
def parseDigitsAux : List Char → Nat → Option Nat
  | [], acc => some acc
  | c :: cs, acc => if c.isDigit then parseDigitsAux cs (acc * 10 + (c.toNat - 48)) else none

/-- Nonempty decimal digit run to a number. -/
def parseDigits : List Char → Option Nat
  | [] => none
  | c :: cs => parseDigitsAux (c :: cs) 0

/-- Python `int(str)` on a character list: strips whitespace, allows one
sign, then decimal digits.  (Digit-group underscores are not modelled; the
schedule strings at issue never contain them.) -/
def pyIntChars (cs : List Char) : Option Int :=
  match (cs.dropWhile isSpaceChar).reverse.dropWhile isSpaceChar |>.reverse with
  | [] => none
  | c :: rest =>
    if c == '-' then (parseDigits rest).map (fun n => -(n : Int))
    else if c == '+' then (parseDigits rest).map (fun n => (n : Int))
    else (parseDigits (c :: rest)).map (fun n => (n : Int))

/-- Python `t.split(":")` (single-character separator). -/
def splitOnColon : List Char → List (List Char)
  | [] => [[]]
  | c :: cs =>
    if c == ':' then [] :: splitOnColon cs
    else
      match splitOnColon cs with
      | [] => [[c]]
      | g :: gs => (c :: g) :: gs

/-- `hour, minute = map(int, t.split(":"))` — succeeds exactly when the
split yields two parts and both parse as Python ints; any failure is the
caught exception of the `try` block (source lines 70-74). -/
def parseHM (t : String) : Option (Int × Int) :=
  match (splitOnColon t.data).map pyIntChars with
  | [some h, some m] => some (h, m)
  | _ => none

/-- A document of the `medication` collection (schema `Medication`);
`id` is `str(m["_id"])`. -/
structure Medication where
  id : String
  user_id : String
  name : String
  dosage : String
  pill_image_url : Option String
  days_of_week : List Int
  times : List String
deriving DecidableEq

/-- A document of the `doselog` collection (schema `DoseLog`). -/
structure DoseLog where
  user_id : String
  medication_id : String
  scheduled_at : PyDateTime
  status : String
  taken_at : Option PyDateTime
  snooze_until : Option PyDateTime
  updated_at : Option PyDateTime
deriving DecidableEq

/-- The database: the two collections the core reads and writes, each in
natural (insertion) order. -/
structure Store where
  meds : List Medication
  logs : List DoseLog
deriving DecidableEq

/-- The `doselog` query `{"user_id": u, "medication_id": mid, "scheduled_at": sat}`. -/
def keyMatch (u mid : String) (sat : PyDateTime) (lg : DoseLog) : Bool :=
  lg.user_id == u && lg.medication_id == mid && lg.scheduled_at == sat

/-- `update_one(q, {"$set": ...}, upsert=True)`: update the first document
matching `p` with `f`, or insert `fresh` when none matches. -/
def upsertWith (p : α → Bool) (f : α → α) (fresh : α) : List α → List α
  | [] => [fresh]
  | a :: as => if p a then f a :: as else a :: upsertWith p f fresh as

/-- One row of the today-list emitted by `get_todays_doses`. -/
structure DueEntry where
  medication_id : String
  name : String
  dosage : String
  pill_image_url : Option String
  scheduled_at : PyDateTime
  status : String
deriving DecidableEq

/-- `log.get("status") if log else "pending"` after the
`find_one` on the dose-log key (source lines 77-82). -/
def statusOf (logs : List DoseLog) (u mid : String) (sat : PyDateTime) : String :=
  match logs.find? (keyMatch u mid sat) with
  | some lg => lg.status
  | none => "pending"

/-- The dict appended for one schedule time (source lines 83-90). -/
def mkEntry (logs : List DoseLog) (u : String) (now : PyDateTime) (m : Medication)
    (h mi : Int) : DueEntry :=
  { medication_id := m.id, name := m.name, dosage := m.dosage,
    pill_image_url := m.pill_image_url,
    scheduled_at := { day := now.day, sec := h.toNat * 3600 + mi.toNat * 60 },
    status := statusOf logs u m.id { day := now.day, sec := h.toNat * 3600 + mi.toNat * 60 } }

/-- The inner loop over `schedule["times"]` (source lines 70-90).  A time
string that fails `parseHM` is skipped by the `except: continue`; a parsed
pair outside `datetime.replace`'s ranges raises `ValueError`, which nothing
catches. -/
def resolveTimes (logs : List DoseLog) (u : String) (now : PyDateTime) (m : Medication) :
    List String → Except String (List DueEntry)
  | [] => .ok []
  | t :: ts =>
    match parseHM t with
    | none => resolveTimes logs u now m ts
    | some (h, mi) =>
      if h < 0 || 23 < h || mi < 0 || 59 < mi then
        .error "ValueError: hour or minute out of range in datetime.replace"
      else
        match resolveTimes logs u now m ts with
        | .error e => .error e
        | .ok rest => .ok (mkEntry logs u now m h mi :: rest)

/-- The outer loop over the user's medications (source lines 64-90),
including the `if weekday not in days: continue` guard. -/
def resolveAll (logs : List DoseLog) (u : String) (now : PyDateTime) (wd : Int) :
    List Medication → Except String (List DueEntry)
  | [] => .ok []
  | m :: ms =>
    if m.days_of_week.contains wd then
      match resolveTimes logs u now m m.times with
      | .error e => .error e
      | .ok es =>
        match resolveAll logs u now wd ms with
        | .error e => .error e
        | .ok rest => .ok (es ++ rest)
    else resolveAll logs u now wd ms

/-- Stable insert: keep `b` in front of `a` only when `b` strictly precedes
it; among equal keys the earlier-listed element stays first. -/
def insertStable (lt : α → α → Bool) (a : α) : List α → List α
  | [] => [a]
  | b :: bs => if lt b a then b :: insertStable lt a bs else a :: b :: bs

/-- Python `list.sort(key=...)`: a stable sort (Timsort); modelled by the
extensionally equal stable insertion sort. -/
def pySort (lt : α → α → Bool) : List α → List α
  | [] => []
  | a :: as => insertStable lt a (pySort lt as)

/-- Chronological strict order on entries — the order of their ISO-8601
`scheduled_at` strings (`due.sort(key=lambda x: x["scheduled_at"])`). -/
def schedLt (a b : DueEntry) : Bool :=
  a.scheduled_at.day < b.scheduled_at.day ||
    (a.scheduled_at.day == b.scheduled_at.day && a.scheduled_at.sec < b.scheduled_at.sec)

/-- `d["scheduled_at"].startswith(today_str)`: the ISO string of a UTC
instant starts with today's date exactly when the day components agree. -/
def isToday (now : PyDateTime) (d : DueEntry) : Bool :=
  d.scheduled_at.day == now.day

/-- `get_todays_doses(user_id, now)` (source lines 57-96). -/
def get_todays_doses (st : Store) (user_id : String) (now : PyDateTime) :
    Except String (List DueEntry) :=
  match resolveAll st.logs user_id now (pyWeekday now)
      (st.meds.filter (fun m => m.user_id == user_id)) with
  | .error e => .error e
  | .ok due => .ok ((pySort schedLt due).filter (isToday now))

/-- The `$set` upsert of `POST /api/take` (source lines 119-129): both
fresh timestamps are reads of the same clock instant `now`. -/
def applyTaken (logs : List DoseLog) (u mid : String) (sat now : PyDateTime) : List DoseLog :=
  upsertWith (keyMatch u mid sat)
    (fun lg => { lg with status := "taken", taken_at := some now, updated_at := some now })
    { user_id := u, medication_id := mid, scheduled_at := sat, status := "taken",
      taken_at := some now, snooze_until := none, updated_at := some now }
    logs

/-- `mark_taken` as a store transformer. -/
def mark_taken (st : Store) (u mid : String) (sat now : PyDateTime) : Store :=
  { st with logs := applyTaken st.logs u mid sat now }

/-- The `$set` upsert shared by `POST /api/snooze` and the voice reminder
branch: status snoozed, the given `snooze_until`, the given `updated_at`. -/
def applySnooze (logs : List DoseLog) (u mid : String) (sat untl upd : PyDateTime) : List DoseLog :=
  upsertWith (keyMatch u mid sat)
    (fun lg => { lg with status := "snoozed", snooze_until := some untl, updated_at := some upd })
    { user_id := u, medication_id := mid, scheduled_at := sat, status := "snoozed",
      taken_at := none, snooze_until := some untl, updated_at := some upd }
    logs

/-- `snooze` (source lines 139-150): returns the new store and the
`snooze_until` echoed in the response. -/
def snooze (st : Store) (u mid : String) (sat : PyDateTime) (minutes : Int)
    (now : PyDateTime) : Store × PyDateTime :=
  ({ st with logs := applySnooze st.logs u mid sat (pyAddMinutes now minutes) now },
    pyAddMinutes now minutes)

/-- The responses of `POST /api/voice`, one constructor per return site:
`nothingDue` = "You have no medication due right now.",
`medTime d n` = the take-now message naming dosage `d` and medication `n`,
`remindConfirm m` / `remindConfirmNothing m` = the reminder confirmations
mentioning `m` minutes (with and without a due dose), `fallback` = the
did-not-understand message. -/
inductive VoiceResponse where
  | nothingDue : VoiceResponse
  | medTime (dosage name : String) : VoiceResponse
  | remindConfirm (minutes : Int) : VoiceResponse
  | remindConfirmNothing (minutes : Int) : VoiceResponse
  | fallback : VoiceResponse
deriving DecidableEq

/-- `d["status"] in ("pending", "snoozed")`. -/
def isActive (d : DueEntry) : Bool :=
  d.status == "pending" || d.status == "snoozed"

/-- The query-intent trigger (source line 157). -/
def queryTrigger (tl : String) : Bool :=
  strContains tl "what" &&
    (strContains tl "medicine" || strContains tl "medication" || strContains tl "take now")

/-- The reminder-intent trigger (source line 172). -/
def remindTrigger (tl : String) : Bool :=
  startsList tl.data "remind".data && strContains tl "minute"

/-- `abs(int((dt - now).total_seconds() // 60))`; the timestamps are whole
seconds, so the float arithmetic is exact and `//` is integer floor
division. -/
def minutesFromNow (now : PyDateTime) (d : DueEntry) : Nat :=
  (Int.fdiv ((d.scheduled_at.day - now.day) * 86400 +
      ((d.scheduled_at.sec : Int) - (now.sec : Int))) 60).natAbs

/-- The fixed minute ladder scan (source lines 174-178): first `m` whose
decimal digits occur as a substring wins, default 15. -/
def ladderLookup (tl : String) : List Int → Int
  | [] => 15
  | m :: ms => if strContains tl (toString m) then m else ladderLookup tl ms

/-- Minute count extracted by the reminder intent. -/
def extractMinutes (tl : String) : Int :=
  ladderLookup tl [5, 10, 15, 20, 30, 45, 60]

/-- `voice_command` (source lines 153-196): returns the response and the
store after any side effect; an uncaught resolver exception propagates. -/
def voice_command (st : Store) (text user_id : String) (now : PyDateTime) :
    Except String (VoiceResponse × Store) :=
  if queryTrigger (pyNormalize text) then
    match get_todays_doses st user_id now with
    | .error e => .error e
    | .ok doses =>
      match pySort (fun a b => minutesFromNow now a < minutesFromNow now b)
          (doses.filter isActive) with
      | [] => .ok (.nothingDue, st)
      | top :: _ => .ok (.medTime top.dosage top.name, st)
  else if remindTrigger (pyNormalize text) then
    match get_todays_doses st user_id now with
    | .error e => .error e
    | .ok doses =>
      match doses.filter isActive with
      | [] => .ok (.remindConfirmNothing (extractMinutes (pyNormalize text)), st)
      | top :: _ =>
        .ok (.remindConfirm (extractMinutes (pyNormalize text)),
          { st with logs := (applySnooze st.logs user_id top.medication_id top.scheduled_at
              (pyAddMinutes now (extractMinutes (pyNormalize text))) now) })
  else .ok (.fallback, st)

/-- `day_status[day][s]` as accumulated by the tally loop of
`caregiver_compliance` (source lines 205-219): the number of the user's
dose-log documents scheduled on day `d` whose status is `s`. -/
def countUser (logs : List DoseLog) (u : String) (d : Int) (s : String) : Nat :=
  (logs.filter (fun lg => lg.user_id == u && lg.scheduled_at.day == d && lg.status == s)).length

/-- The per-day classification (source lines 224-229). -/
def classifyDay (logs : List DoseLog) (u : String) (d : Int) : String :=
  if 0 < countUser logs u d "missed" then "missed"
  else if 0 < countUser logs u d "taken" ∧ countUser logs u d "pending" = 0 then "taken"
  else "pending"

/-- One calendar row `{date, status}`; the ISO date string is modelled by
the day number. -/
structure CalEntry where
  date : Int
  status : String
deriving DecidableEq

/-- The `while d <= now.date()` walk (source lines 221-231). -/
def calendarDays (startDay endDay : Int) : List Int :=
  (List.range (endDay + 1 - startDay).toNat).map (fun i => startDay + Int.ofNat i)

/-- `caregiver_compliance` (source lines 199-233).  The stored
`scheduled_at` values are datetimes, so the `fromisoformat` fallback branch
of the bucketing loop is never taken in this model. -/
def caregiver_compliance (st : Store) (user_id : String) (now : PyDateTime) : List CalEntry :=
  (calendarDays (pySubDays now 30).day now.day).map
    (fun d => { date := d, status := classifyDay st.logs user_id d })

/-- Re-derive an entry's status against another dose-log list: the
entry-valued effect of swapping the store's `doselog` collection. -/
def restatus (logs : List DoseLog) (u : String) (d : DueEntry) : DueEntry :=
  { d with status := statusOf logs u d.medication_id d.scheduled_at }

/-- `hmInRange (h, mi)`: the parsed pair is accepted by `datetime.replace`. -/
def hmInRange (p : Int × Int) : Bool :=
  0 ≤ p.1 && p.1 ≤ 23 && 0 ≤ p.2 && p.2 ≤ 59

/-- Drop every schedule time that `parseHM` rejects (the entries the
`except: continue` skips), keeping everything else. -/
def dropUnparseable (st : Store) : Store :=
  { st with meds := st.meds.map (fun m => { m with times := m.times.filter (fun t => (parseHM t).isSome) }) }

/-- First element of the list minimal for `lt` (ties keep the earlier
element): the selection a stable sort by `lt` puts at the head. -/
def firstMin (lt : α → α → Bool) : List α → Option α
  | [] => none
  | a :: as =>
    match firstMin lt as with
    | none => some a
    | some b => if lt b a then some b else some a

/-! ## Generic lemmas about the list machinery -/

theorem head?_pySort (lt : α → α → Bool) (l : List α) :
    (pySort lt l).head? = firstMin lt l := by
  induction l with
  | nil => rfl
  | cons a as ih =>
    simp only [pySort, firstMin, ← ih]
    cases h : pySort lt as with
    | nil => rfl
    | cons b bs =>
      simp only [insertStable]
      by_cases hlt : lt b a <;> simp [hlt]

theorem mem_insertStable (lt : α → α → Bool) (x : α) (l : List α) (a : α) :
    a ∈ insertStable lt x l ↔ a = x ∨ a ∈ l := by
  induction l with
  | nil => simp [insertStable]
  | cons b bs ih =>
    simp only [insertStable]
    by_cases hlt : lt b x = true
    · rw [if_pos hlt]
      simp only [List.mem_cons, ih]
      tauto
    · rw [if_neg hlt]
      simp only [List.mem_cons]

theorem mem_pySort (lt : α → α → Bool) (l : List α) (a : α) :
    a ∈ pySort lt l ↔ a ∈ l := by
  induction l with
  | nil => simp [pySort]
  | cons b bs ih => simp [pySort, mem_insertStable, ih]

theorem insertStable_map (f : α → α) (lt : α → α → Bool)
    (hf : ∀ a b, lt (f a) (f b) = lt a b) (a : α) (l : List α) :
    insertStable lt (f a) (l.map f) = (insertStable lt a l).map f := by
  induction l with
  | nil => rfl
  | cons b bs ih =>
    simp only [List.map_cons, insertStable, hf]
    by_cases hlt : lt b a <;> simp [hlt, ih]

theorem pySort_map (f : α → α) (lt : α → α → Bool)
    (hf : ∀ a b, lt (f a) (f b) = lt a b) (l : List α) :
    pySort lt (l.map f) = (pySort lt l).map f := by
  induction l with
  | nil => rfl
  | cons a as ih => simp only [List.map_cons, pySort, ih, insertStable_map f lt hf]

theorem filter_map_eq (f : α → α) (p : α → Bool) (hp : ∀ a, p (f a) = p a) (l : List α) :
    (l.map f).filter p = (l.filter p).map f := by
  induction l with
  | nil => rfl
  | cons a as ih =>
    simp only [List.map_cons, List.filter_cons, hp]
    by_cases h : p a <;> simp [h, ih]

theorem subList_of_startsList (pat l : List Char) (h : startsList l pat = true) :
    subList pat l = true := by
  cases l with
  | nil => exact h
  | cons a xs => simp [subList, h]

theorem subList_cons_drop (c : Char) (pat l : List Char)
    (h : subList (c :: pat) l = true) : subList pat l = true := by
  induction l with
  | nil => simp [subList, startsList] at h
  | cons a xs ih =>
    simp only [subList, Bool.or_eq_true] at h ⊢
    rcases h with h | h
    · have h2 : startsList xs pat = true := by
        simp only [startsList, Bool.and_eq_true] at h
        exact h.2
      exact Or.inr (subList_of_startsList _ _ h2)
    · exact Or.inr (ih h)

theorem find?_upsertWith (p : α → Bool) (f : α → α) (fresh : α) (l : List α)
    (hfresh : p fresh = true) (hf : ∀ a, p a = true → p (f a) = true) :
    (upsertWith p f fresh l).find? p = some (((l.find? p).map f).getD fresh) := by
  induction l with
  | nil => simp [upsertWith, List.find?, hfresh]
  | cons a as ih =>
    by_cases h : p a
    · simp [upsertWith, h, List.find?, hf a h]
    · simp only [upsertWith, h, if_false]
      have h' : p a = false := by simp [h]
      simp [List.find?, h', ih]

/-! ## Lemmas about the dose resolver -/

theorem resolveTimes_status (logs : List DoseLog) (u : String) (now : PyDateTime)
    (m : Medication) (ts : List String) (l : List DueEntry)
    (h : resolveTimes logs u now m ts = .ok l) :
    ∀ d ∈ l, d.status = statusOf logs u d.medication_id d.scheduled_at := by
  induction ts generalizing l with
  | nil =>
    simp only [resolveTimes] at h
    cases h
    simp
  | cons t ts ih =>
    simp only [resolveTimes] at h
    split at h
    · exact ih l h
    · split at h
      · cases h
      · split at h
        · cases h
        · rename_i rest hrest
          cases h
          intro d hd
          rcases List.mem_cons.mp hd with hdm | hdm
          · subst hdm
            rfl
          · exact ih rest hrest d hdm

theorem resolveAll_status (logs : List DoseLog) (u : String) (now : PyDateTime)
    (wd : Int) (meds : List Medication) (l : List DueEntry)
    (h : resolveAll logs u now wd meds = .ok l) :
    ∀ d ∈ l, d.status = statusOf logs u d.medication_id d.scheduled_at := by
  induction meds generalizing l with
  | nil =>
    simp only [resolveAll] at h
    cases h
    simp
  | cons m ms ih =>
    simp only [resolveAll] at h
    by_cases hwd : m.days_of_week.contains wd = true
    · rw [if_pos hwd] at h
      cases hts : resolveTimes logs u now m m.times with
      | error e =>
        rw [hts] at h
        cases h
      | ok es =>
        rw [hts] at h
        cases hrest : resolveAll logs u now wd ms with
        | error e =>
          rw [hrest] at h
          cases h
        | ok rest =>
          rw [hrest] at h
          cases h
          intro d hd
          rcases List.mem_append.mp hd with hdm | hdm
          · exact resolveTimes_status logs u now m m.times es hts d hdm
          · exact ih rest hrest d hdm
    · rw [if_neg hwd] at h
      exact ih l h

theorem get_todays_status (st : Store) (u : String) (now : PyDateTime)
    (ds : List DueEntry) (h : get_todays_doses st u now = .ok ds) :
    ∀ d ∈ ds, d.status = statusOf st.logs u d.medication_id d.scheduled_at := by
  unfold get_todays_doses at h
  cases hr : resolveAll st.logs u now (pyWeekday now)
      (st.meds.filter (fun m => m.user_id == u)) with
  | error e =>
    rw [hr] at h
    cases h
  | ok due =>
    rw [hr] at h
    cases h
    intro d hd
    have hdue : d ∈ due := (mem_pySort _ _ _).mp (List.mem_of_mem_filter hd)
    exact resolveAll_status st.logs u now (pyWeekday now) _ due hr d hdue

/-! ## Swapping the dose-log collection only re-derives statuses -/

theorem restatus_mkEntry (logs L : List DoseLog) (u : String) (now : PyDateTime)
    (m : Medication) (h mi : Int) :
    restatus L u (mkEntry logs u now m h mi) = mkEntry L u now m h mi := rfl

theorem resolveTimes_restatus (logs L : List DoseLog) (u : String) (now : PyDateTime)
    (m : Medication) (ts : List String) :
    resolveTimes L u now m ts =
      (resolveTimes logs u now m ts).map (List.map (restatus L u)) := by
  induction ts with
  | nil => rfl
  | cons t ts ih =>
    simp only [resolveTimes]
    split
    · exact ih
    · split
      · rfl
      · rw [ih]
        cases hrest : resolveTimes logs u now m ts with
        | error e => rfl
        | ok rest => rfl

theorem resolveAll_restatus (logs L : List DoseLog) (u : String) (now : PyDateTime)
    (wd : Int) (meds : List Medication) :
    resolveAll L u now wd meds =
      (resolveAll logs u now wd meds).map (List.map (restatus L u)) := by
  induction meds with
  | nil => rfl
  | cons m ms ih =>
    simp only [resolveAll]
    by_cases hwd : m.days_of_week.contains wd = true
    · rw [if_pos hwd, if_pos hwd, resolveTimes_restatus logs L u now m m.times, ih]
      cases hts : resolveTimes logs u now m m.times with
      | error e => rfl
      | ok es =>
        cases hrest : resolveAll logs u now wd ms with
        | error e => rfl
        | ok rest => simp only [Except.map, List.map_append]
    · rw [if_neg hwd, if_neg hwd]
      exact ih

theorem get_todays_restatus (st : Store) (L : List DoseLog) (u : String) (now : PyDateTime) :
    get_todays_doses { st with logs := L } u now =
      (get_todays_doses st u now).map (List.map (restatus L u)) := by
  unfold get_todays_doses
  rw [show ({ st with logs := L } : Store).logs = L from rfl,
    show ({ st with logs := L } : Store).meds = st.meds from rfl,
    resolveAll_restatus st.logs L u now (pyWeekday now)]
  cases hr : resolveAll st.logs u now (pyWeekday now)
      (st.meds.filter (fun m => m.user_id == u)) with
  | error e => rfl
  | ok due =>
    simp only [Except.map]
    rw [pySort_map (restatus L u) schedLt (fun a b => rfl) due,
      filter_map_eq (restatus L u) (isToday now) (fun a => rfl)]

/-! ## Skipping unparseable schedule times -/

theorem mkEntry_times_irrel (logs : List DoseLog) (u : String) (now : PyDateTime)
    (m : Medication) (X : List String) (h mi : Int) :
    mkEntry logs u now { m with times := X } h mi = mkEntry logs u now m h mi := rfl

theorem resolveTimes_times_irrel (logs : List DoseLog) (u : String) (now : PyDateTime)
    (m : Medication) (X ts : List String) :
    resolveTimes logs u now { m with times := X } ts = resolveTimes logs u now m ts := by
  induction ts with
  | nil => rfl
  | cons t ts ih =>
    simp only [resolveTimes, ih, mkEntry_times_irrel]

theorem resolveTimes_skip (logs : List DoseLog) (u : String) (now : PyDateTime)
    (m : Medication) (ts : List String)
    (h : ∀ t ∈ ts, ∀ p, parseHM t = some p → hmInRange p = true) :
    ∃ l, resolveTimes logs u now m ts = .ok l ∧
      resolveTimes logs u now m (ts.filter (fun t => (parseHM t).isSome)) = .ok l := by
  induction ts with
  | nil => exact ⟨[], rfl, rfl⟩
  | cons t ts ih =>
    obtain ⟨l, h1, h2⟩ := ih (fun t2 ht2 => h t2 (List.mem_cons_of_mem _ ht2))
    cases hp : parseHM t with
    | none =>
      refine ⟨l, ?_, ?_⟩
      · simp only [resolveTimes, hp]
        exact h1
      · rw [List.filter_cons, if_neg (by simp [hp])]
        exact h2
    | some pr =>
      obtain ⟨ph, pm⟩ := pr
      have hrange : hmInRange (ph, pm) = true := h t (List.mem_cons_self t ts) (ph, pm) hp
      have hcond : (ph < 0 || 23 < ph || pm < 0 || 59 < pm) = false := by
        simp only [hmInRange, Bool.and_eq_true, decide_eq_true_eq] at hrange
        simp only [Bool.or_eq_false_iff, decide_eq_false_iff_not, not_lt]
        omega
      refine ⟨mkEntry logs u now m ph pm :: l, ?_, ?_⟩
      · simp only [resolveTimes, hp, hcond, Bool.false_eq_true, if_false, h1]
      · rw [List.filter_cons, if_pos (by simp [hp])]
        simp only [resolveTimes, hp, hcond, Bool.false_eq_true, if_false, h2]

theorem resolveAll_skip (logs : List DoseLog) (u : String) (now : PyDateTime)
    (wd : Int) (meds : List Medication)
    (h : ∀ m ∈ meds, ∀ t ∈ m.times, ∀ p, parseHM t = some p → hmInRange p = true) :
    ∃ l, resolveAll logs u now wd meds = .ok l ∧
      resolveAll logs u now wd
        (meds.map (fun m => { m with times := m.times.filter (fun t => (parseHM t).isSome) })) = .ok l := by
  induction meds with
  | nil => exact ⟨[], rfl, rfl⟩
  | cons m ms ih =>
    obtain ⟨l, h1, h2⟩ := ih (fun m2 hm2 => h m2 (List.mem_cons_of_mem _ hm2))
    obtain ⟨es, ht1, ht2⟩ := resolveTimes_skip logs u now m m.times
      (h m (List.mem_cons_self m ms))
    by_cases hwd : m.days_of_week.contains wd = true
    · refine ⟨es ++ l, ?_, ?_⟩
      · simp only [resolveAll, hwd, if_true, ht1, h1]
      · simp only [List.map_cons, resolveAll, hwd, if_true,
          resolveTimes_times_irrel, ht2, h2]
    · refine ⟨l, ?_, ?_⟩
      · simp only [resolveAll, hwd, Bool.false_eq_true, if_false, h1]
      · simp only [List.map_cons, resolveAll, hwd, Bool.false_eq_true, if_false, h2]

/-! ## Lemmas about the compliance calendar -/

theorem mem_compliance (st : Store) (u : String) (now : PyDateTime) (e : CalEntry)
    (he : e ∈ caregiver_compliance st u now) :
    e.status = classifyDay st.logs u e.date := by
  unfold caregiver_compliance at he
  obtain ⟨d, hd, rfl⟩ := List.mem_map.mp he
  rfl

theorem classifyDay_cases (logs : List DoseLog) (u : String) (d : Int) :
    classifyDay logs u d = "missed" ∨ classifyDay logs u d = "taken" ∨
      classifyDay logs u d = "pending" := by
  unfold classifyDay
  split
  · exact Or.inl rfl
  · split
    · exact Or.inr (Or.inl rfl)
    · exact Or.inr (Or.inr rfl)

theorem countUser_zero (logs : List DoseLog) (u : String) (d : Int) (s : String)
    (h : ∀ lg ∈ logs, lg.user_id = u → lg.scheduled_at.day = d → lg.status ≠ s) :
    countUser logs u d s = 0 := by
  induction logs with
  | nil => rfl
  | cons lg rest ih =>
    have hpred : (lg.user_id == u && lg.scheduled_at.day == d && lg.status == s) = false := by
      by_cases h1 : lg.user_id = u
      · by_cases h2 : lg.scheduled_at.day = d
        · have h3 := h lg (List.mem_cons_self lg rest) h1 h2
          simp [h1, h2, h3]
        · simp [h2]
      · simp [h1]
    unfold countUser
    rw [List.filter_cons, if_neg (by simp [hpred])]
    exact ih (fun x hx => h x (List.mem_cons_of_mem _ hx))

/-! ## The two take/snooze upserts, located by their key -/

theorem keyMatch_fresh_taken (u mid : String) (sat now : PyDateTime) :
    keyMatch u mid sat { user_id := u, medication_id := mid, scheduled_at := sat,
                         status := "taken", taken_at := some now, snooze_until := none,
                         updated_at := some now } = true := by
  simp [keyMatch]

theorem keyMatch_fresh_snoozed (u mid : String) (sat untl upd : PyDateTime) :
    keyMatch u mid sat { user_id := u, medication_id := mid, scheduled_at := sat,
                         status := "snoozed", taken_at := none, snooze_until := some untl,
                         updated_at := some upd } = true := by
  simp [keyMatch]

theorem find?_applyTaken (logs : List DoseLog) (u mid : String) (sat now : PyDateTime) :
    (applyTaken logs u mid sat now).find? (keyMatch u mid sat) =
      some (((logs.find? (keyMatch u mid sat)).map
          (fun lg => { lg with status := "taken", taken_at := some now, updated_at := some now })).getD
        { user_id := u, medication_id := mid, scheduled_at := sat, status := "taken",
          taken_at := some now, snooze_until := none, updated_at := some now }) :=
  find?_upsertWith (keyMatch u mid sat)
    (fun lg => { lg with status := "taken", taken_at := some now, updated_at := some now })
    { user_id := u, medication_id := mid, scheduled_at := sat, status := "taken",
      taken_at := some now, snooze_until := none, updated_at := some now }
    logs (keyMatch_fresh_taken u mid sat now) (fun a ha => ha)

theorem find?_applySnooze (logs : List DoseLog) (u mid : String) (sat untl upd : PyDateTime) :
    (applySnooze logs u mid sat untl upd).find? (keyMatch u mid sat) =
      some (((logs.find? (keyMatch u mid sat)).map
          (fun lg => { lg with status := "snoozed", snooze_until := some untl, updated_at := some upd })).getD
        { user_id := u, medication_id := mid, scheduled_at := sat, status := "snoozed",
          taken_at := none, snooze_until := some untl, updated_at := some upd }) :=
  find?_upsertWith (keyMatch u mid sat)
    (fun lg => { lg with status := "snoozed", snooze_until := some untl, updated_at := some upd })
    { user_id := u, medication_id := mid, scheduled_at := sat, status := "snoozed",
      taken_at := none, snooze_until := some untl, updated_at := some upd }
    logs (keyMatch_fresh_snoozed u mid sat untl upd) (fun a ha => ha)

/-! ## Concrete fixtures (Monday 1970-01-05; weekday 0) -/

/-- Monday 1970-01-05, 12:00:00 UTC. -/
def nowMon : PyDateTime := { day := 4, sec := 43200 }

/-- A later clock reading the same day, used as a snooze instant. -/
def now2Ex : PyDateTime := { day := 4, sec := 50000 }

def stEmpty : Store := { meds := [], logs := [] }

def medA : Medication :=
  { id := "A", user_id := "u1", name := "Aspirin", dosage := "100 mg",
    pill_image_url := none, days_of_week := [0], times := ["12:05"] }

def medB : Medication :=
  { id := "B", user_id := "u1", name := "Lipitor", dosage := "1 pill",
    pill_image_url := none, days_of_week := [0], times := ["13:00"] }

def logB : DoseLog :=
  { user_id := "u1", medication_id := "B", scheduled_at := { day := 4, sec := 46800 },
    status := "snoozed", taken_at := none, snooze_until := some { day := 4, sec := 47100 },
    updated_at := none }

/-- One pending dose 5 minutes away (Aspirin) and one snoozed dose 60
minutes away (Lipitor). -/
def stAB : Store := { meds := [medA, medB], logs := [logB] }

def entryA : DueEntry :=
  { medication_id := "A", name := "Aspirin", dosage := "100 mg", pill_image_url := none,
    scheduled_at := { day := 4, sec := 43500 }, status := "pending" }

def entryB : DueEntry :=
  { medication_id := "B", name := "Lipitor", dosage := "1 pill", pill_image_url := none,
    scheduled_at := { day := 4, sec := 46800 }, status := "snoozed" }

/-- Only the Aspirin medication, with no stored dose events. -/
def stA1 : Store := { meds := [medA], logs := [] }

def medX : Medication :=
  { id := "X", user_id := "u1", name := "Xarelto", dosage := "2 pills",
    pill_image_url := none, days_of_week := [0], times := ["08:00"] }

def medY : Medication :=
  { id := "Y", user_id := "u1", name := "Yasmin", dosage := "1 tablet",
    pill_image_url := none, days_of_week := [0], times := ["12:05"] }

/-- An 08:00 dose 240 minutes in the past and a 12:05 dose 5 minutes
ahead, both pending at 12:00. -/
def stXY : Store := { meds := [medX, medY], logs := [] }

def entryX : DueEntry :=
  { medication_id := "X", name := "Xarelto", dosage := "2 pills", pill_image_url := none,
    scheduled_at := { day := 4, sec := 28800 }, status := "pending" }

def entryY : DueEntry :=
  { medication_id := "Y", name := "Yasmin", dosage := "1 tablet", pill_image_url := none,
    scheduled_at := { day := 4, sec := 43500 }, status := "pending" }

/-- The dose log the reminder intent writes for the 08:00 Xarelto dose
when asked at 12:00 for a 10-minute reminder. -/
def logXAfter : DoseLog :=
  { user_id := "u1", medication_id := "X", scheduled_at := { day := 4, sec := 28800 },
    status := "snoozed", taken_at := none, snooze_until := some { day := 4, sec := 43800 },
    updated_at := some nowMon }

def medBad : Medication :=
  { id := "C", user_id := "u1", name := "Coumadin", dosage := "5 mg",
    pill_image_url := none, days_of_week := [0], times := ["25:99", "08:00"] }

/-- A schedule whose first time entry parses as integers but is out of
range for `datetime.replace`. -/
def stBad : Store := { meds := [medBad], logs := [] }

def medUgly : Medication :=
  { id := "D", user_id := "u1", name := "Digoxin", dosage := "0.25 mg",
    pill_image_url := none, days_of_week := [0], times := ["abc", "8:30", "", "7:5:9"] }

/-- A schedule mixing unparseable entries with one well-formed entry. -/
def stUgly : Store := { meds := [medUgly], logs := [] }

def logMissed : DoseLog :=
  { user_id := "u1", medication_id := "A", scheduled_at := { day := 4, sec := 28800 },
    status := "missed", taken_at := none, snooze_until := none, updated_at := none }

def logTaken : DoseLog :=
  { user_id := "u1", medication_id := "A", scheduled_at := { day := 4, sec := 43500 },
    status := "taken", taken_at := some { day := 4, sec := 43600 }, snooze_until := none,
    updated_at := some { day := 4, sec := 43600 } }

/-- A day holding one missed and one taken event. -/
def stMix : Store := { meds := [medA], logs := [logMissed, logTaken] }

def logSnz1 : DoseLog :=
  { user_id := "u1", medication_id := "A", scheduled_at := { day := 4, sec := 28800 },
    status := "snoozed", taken_at := none, snooze_until := some { day := 4, sec := 30000 },
    updated_at := none }

def logSnz2 : DoseLog :=
  { user_id := "u1", medication_id := "B", scheduled_at := { day := 4, sec := 43500 },
    status := "snoozed", taken_at := none, snooze_until := some { day := 4, sec := 45000 },
    updated_at := none }

/-- A day whose stored events are all snoozed. -/
def stSnz : Store := { meds := [], logs := [logSnz1, logSnz2] }

def satEx : PyDateTime := { day := 4, sec := 28800 }
def tEx1 : PyDateTime := { day := 4, sec := 30000 }
def tEx2 : PyDateTime := { day := 4, sec := 30060 }

/-! ## Claims -/

/-- Claim C3, counterexample: calling MarkTaken twice is NOT the one-call
result with only `updated_at` advanced — at this concrete input the second
call also advances `taken_at` (it stores the second call's clock reading),
so the two sides differ. -/
theorem c3_taken_at_advances :
    (mark_taken (mark_taken stEmpty "u1" "X" satEx tEx1) "u1" "X" satEx tEx2).logs.find?
        (keyMatch "u1" "X" satEx) ≠
      ((mark_taken stEmpty "u1" "X" satEx tEx1).logs.find? (keyMatch "u1" "X" satEx)).map
        (fun lg => { lg with updated_at := some tEx2 }) := by
  decide

/-- Claim C3, amended: MarkTaken is idempotent up to its two timestamps:
calling it twice with the identical key yields the same final DoseEvent as
one call, with the `taken_at` and `updated_at` fields both advancing to the
second call's clock reading, and the final status is "taken". -/
theorem c3_mark_taken_idempotent (st : Store) (u mid : String) (sat t1 t2 : PyDateTime) :
    ((mark_taken (mark_taken st u mid sat t1) u mid sat t2).logs.find? (keyMatch u mid sat) =
      ((mark_taken st u mid sat t1).logs.find? (keyMatch u mid sat)).map
        (fun lg => { lg with taken_at := some t2, updated_at := some t2 })) ∧
    ((mark_taken (mark_taken st u mid sat t1) u mid sat t2).logs.find?
        (keyMatch u mid sat)).map DoseLog.status = some "taken" := by
  have h1 := find?_applyTaken st.logs u mid sat t1
  have h2 := find?_applyTaken (applyTaken st.logs u mid sat t1) u mid sat t2
  constructor
  · show (applyTaken (applyTaken st.logs u mid sat t1) u mid sat t2).find? (keyMatch u mid sat)
      = ((applyTaken st.logs u mid sat t1).find? (keyMatch u mid sat)).map _
    rw [h2, h1]
    cases hcase : st.logs.find? (keyMatch u mid sat) with
    | none => rfl
    | some a => rfl
  · show ((applyTaken (applyTaken st.logs u mid sat t1) u mid sat t2).find?
        (keyMatch u mid sat)).map DoseLog.status = some "taken"
    rw [h2, h1]
    cases hcase : st.logs.find? (keyMatch u mid sat) with
    | none => rfl
    | some a => rfl

/-- Claim C6: each day of the compliance calendar is classified by the
any-missed-dominates rule over that day's tallied stored events: a positive
missed count forces "missed"; otherwise a positive taken count with a zero
pending count gives "taken"; otherwise (no taken events, or some pending
ones — including days with no events at all) the day is "pending". -/
theorem c6_day_classification (st : Store) (u : String) (now : PyDateTime) (e : CalEntry)
    (he : e ∈ caregiver_compliance st u now) :
    (0 < countUser st.logs u e.date "missed" → e.status = "missed") ∧
    (countUser st.logs u e.date "missed" = 0 →
      0 < countUser st.logs u e.date "taken" → countUser st.logs u e.date "pending" = 0 →
      e.status = "taken") ∧
    (countUser st.logs u e.date "missed" = 0 →
      (countUser st.logs u e.date "taken" = 0 ∨ 0 < countUser st.logs u e.date "pending") →
      e.status = "pending") := by
  rw [mem_compliance st u now e he]
  unfold classifyDay
  refine ⟨?_, ?_, ?_⟩
  · intro h
    rw [if_pos h]
  · intro h0 ht hp
    rw [if_neg (by omega), if_pos ⟨ht, hp⟩]
  · intro h0 hc
    rw [if_neg (by omega), if_neg (by rcases hc with h | h <;> omega)]

/-- Claim C6, witness: a day with one missed and one taken stored event is
classified "missed". -/
theorem c6_day_classification_witness :
    (CalEntry.mk 4 "missed" ∈ caregiver_compliance stMix "u1" nowMon) ∧
    0 < countUser stMix.logs "u1" (CalEntry.mk 4 "missed").date "missed" ∧
    0 < countUser stMix.logs "u1" (CalEntry.mk 4 "missed").date "taken" ∧
    (CalEntry.mk 4 "missed").status = "missed" :=
  ⟨by decide, by decide, by decide,
    (c6_day_classification stMix "u1" nowMon (CalEntry.mk 4 "missed") (by decide)).1 (by decide)⟩

/-- Claim C7: the compliance calendar is an ordered sequence of exactly 31
entries, one per calendar date from `now`'s date minus 30 days through
`now`'s date inclusive, in ascending date order, each carrying one of the
statuses taken, missed or pending. -/
theorem c7_calendar_window (st : Store) (u : String) (now : PyDateTime) :
    (caregiver_compliance st u now).length = 31 ∧
    (caregiver_compliance st u now).map CalEntry.date =
      (List.range 31).map (fun i => now.day - 30 + Int.ofNat i) ∧
    ∀ e ∈ caregiver_compliance st u now,
      e.status = "taken" ∨ e.status = "missed" ∨ e.status = "pending" := by
  have hn : (now.day + 1 - (pySubDays now 30).day).toNat = 31 := by
    simp only [pySubDays]
    omega
  refine ⟨?_, ?_, ?_⟩
  · unfold caregiver_compliance calendarDays
    rw [hn]
    simp only [List.length_map, List.length_range]
  · unfold caregiver_compliance calendarDays
    rw [hn, List.map_map, List.map_map]
    rfl
  · intro e he
    rcases classifyDay_cases st.logs u e.date with h | h | h <;>
      rw [mem_compliance st u now e he, h] <;> tauto

/-- Claim C7, witness: the calendar of a concrete store at 1970-01-05. -/
theorem c7_calendar_window_witness :
    (caregiver_compliance stAB "u1" nowMon).length = 31 ∧
    (caregiver_compliance stAB "u1" nowMon).map CalEntry.date =
      (List.range 31).map (fun i => nowMon.day - 30 + Int.ofNat i) ∧
    ∀ e ∈ caregiver_compliance stAB "u1" nowMon,
      e.status = "taken" ∨ e.status = "missed" ∨ e.status = "pending" :=
  c7_calendar_window stAB "u1" nowMon

/-- Claim C10: a calendar day all of whose stored events are snoozed is
classified "pending", exactly like a day with no stored events: the
snoozed tally bucket is never inspected by the classification rule. -/
theorem c10_all_snoozed_pending (st : Store) (u : String) (now : PyDateTime) (e : CalEntry)
    (he : e ∈ caregiver_compliance st u now)
    (hall : ∀ lg ∈ st.logs, lg.user_id = u → lg.scheduled_at.day = e.date →
      lg.status = "snoozed") :
    e.status = "pending" ∧ classifyDay st.logs u e.date = classifyDay [] u e.date := by
  have hmiss : countUser st.logs u e.date "missed" = 0 :=
    countUser_zero _ _ _ _ (fun lg hm h1 h2 => by rw [hall lg hm h1 h2]; decide)
  have htaken : countUser st.logs u e.date "taken" = 0 :=
    countUser_zero _ _ _ _ (fun lg hm h1 h2 => by rw [hall lg hm h1 h2]; decide)
  have hcls : classifyDay st.logs u e.date = "pending" := by
    unfold classifyDay
    rw [if_neg (by omega), if_neg (by omega)]
  refine ⟨?_, ?_⟩
  · rw [mem_compliance st u now e he, hcls]
  · rw [hcls]
    rfl

/-- Claim C10, witness: a day holding two snoozed events (and nothing
else) reports "pending". -/
theorem c10_all_snoozed_pending_witness :
    (CalEntry.mk 4 "pending" ∈ caregiver_compliance stSnz "u1" nowMon) ∧
    (∀ lg ∈ stSnz.logs, lg.user_id = "u1" → lg.scheduled_at.day = (4 : Int) →
      lg.status = "snoozed") ∧
    (CalEntry.mk 4 "pending").status = "pending" :=
  ⟨by decide, by decide,
    (c10_all_snoozed_pending stSnz "u1" nowMon (CalEntry.mk 4 "pending")
      (by decide) (by decide)).1⟩

/-- Claim C1, counterexample: a time entry that parses as two integers but
is out of range ("25:99") is NOT silently skipped — `datetime.replace`
raises an uncaught ValueError, so `get_todays_doses` raises instead of
returning normally with the well-formed "08:00" entry resolved. -/
theorem c1_out_of_range_raises :
    get_todays_doses stBad "u1" nowMon =
      .error "ValueError: hour or minute out of range in datetime.replace" := rfl

/-- Claim C1, amended: only time entries that fail to parse as two Python
ints (non-numeric entries such as "abc", wrong part counts, empty parts)
are silently skipped; when every parseable entry is in `datetime.replace`
range, `get_todays_doses` returns normally and produces exactly the list
it would produce with the unparseable entries removed.  Entries that parse
but are out of range (such as "25:99") instead raise an uncaught
ValueError (see the counterexample). -/
theorem c1_unparseable_skipped (st : Store) (u : String) (now : PyDateTime)
    (h : ∀ m ∈ st.meds, ∀ t ∈ m.times, (parseHM t).all hmInRange = true) :
    ∃ l, get_todays_doses st u now = .ok l ∧
      get_todays_doses (dropUnparseable st) u now = .ok l := by
  have h' : ∀ m2 ∈ st.meds.filter (fun m => m.user_id == u), ∀ t ∈ m2.times, ∀ p,
      parseHM t = some p → hmInRange p = true := by
    intro m2 hm2 t ht p hp
    have := h m2 (List.mem_of_mem_filter hm2) t ht
    rw [hp] at this
    simpa [Option.all] using this
  obtain ⟨l0, h1, h2⟩ := resolveAll_skip st.logs u now (pyWeekday now)
    (st.meds.filter (fun m => m.user_id == u)) h'
  refine ⟨(pySort schedLt l0).filter (isToday now), ?_, ?_⟩
  · unfold get_todays_doses
    rw [h1]
  · unfold get_todays_doses
    have hmeds : (dropUnparseable st).meds.filter (fun m => m.user_id == u)
        = (st.meds.filter (fun m => m.user_id == u)).map
            (fun m => { m with times := m.times.filter (fun t => (parseHM t).isSome) }) := by
      show (st.meds.map _).filter _ = _
      rw [filter_map_eq
        (fun m => { m with times := m.times.filter (fun t => (parseHM t).isSome) })
        (fun m => m.user_id == u) (fun a => rfl) st.meds]
    rw [show (dropUnparseable st).logs = st.logs from rfl, hmeds, h2]

/-- Claim C1, witness: a schedule mixing "abc", "8:30", "" and "7:5:9"
resolves normally and yields the same list as the schedule reduced to its
parseable entries. -/
theorem c1_unparseable_skipped_witness :
    (∀ m ∈ stUgly.meds, ∀ t ∈ m.times, (parseHM t).all hmInRange = true) ∧
    (∃ l, get_todays_doses stUgly "u1" nowMon = .ok l ∧
      get_todays_doses (dropUnparseable stUgly) "u1" nowMon = .ok l) :=
  ⟨by decide, c1_unparseable_skipped stUgly "u1" nowMon (by decide)⟩

/-- Claim C9: the minute ladder [5,10,15,20,30,45,60] is scanned in order
with substring containment and first match winning, so any text containing
"15" or "45" also contains "5" and extracts 5 minutes — the stated 15- or
45-minute duration is never selected. -/
theorem c9_ladder_extracts_five (tl : String)
    (h : strContains tl "15" = true ∨ strContains tl "45" = true) :
    extractMinutes tl = 5 := by
  have h5 : strContains tl "5" = true := by
    rcases h with h | h
    · exact subList_cons_drop '1' ['5'] tl.data h
    · exact subList_cons_drop '4' ['5'] tl.data h
  unfold extractMinutes ladderLookup
  rw [show toString (5 : Int) = "5" from rfl, h5]
  rfl

/-- Claim C9, witness: "remind me in 15 minutes" extracts 5 minutes. -/
theorem c9_ladder_extracts_five_witness :
    strContains (pyNormalize "Remind me in 15 minutes") "15" = true ∧
    extractMinutes (pyNormalize "Remind me in 15 minutes") = 5 :=
  ⟨by decide, c9_ladder_extracts_five _ (Or.inl (by decide))⟩

/-- Claim C4: when the query intent fires and the pending/snoozed list is
nonempty, the response names the dosage and medication name of the entry
with minimum absolute whole-minute distance from `now`, ties resolved to
the first entry in the aggregator's chronological order (`firstMin` picks
exactly that entry, and the stable sort puts it at the head). -/
theorem c4_query_names_nearest (st : Store) (text u : String) (now : PyDateTime)
    (ds : List DueEntry) (d : DueEntry)
    (hq : queryTrigger (pyNormalize text) = true)
    (hok : get_todays_doses st u now = .ok ds)
    (hmin : firstMin (fun a b => minutesFromNow now a < minutesFromNow now b)
        (ds.filter isActive) = some d) :
    voice_command st text u now = .ok (.medTime d.dosage d.name, st) := by
  have hh : (pySort (fun a b => minutesFromNow now a < minutesFromNow now b)
      (ds.filter isActive)).head? = some d := by
    rw [head?_pySort]
    exact hmin
  unfold voice_command
  rw [if_pos hq, hok]
  dsimp only
  cases hL : pySort (fun a b => minutesFromNow now a < minutesFromNow now b)
      (ds.filter isActive) with
  | nil =>
    rw [hL] at hh
    cases hh
  | cons top rest =>
    rw [hL] at hh
    obtain rfl : top = d := by
      simpa using hh
    rfl

/-- Claim C4, witness: with one pending dose 5 minutes ahead and one
snoozed dose 60 minutes ahead, the query names the 5-minute dose. -/
theorem c4_query_names_nearest_witness :
    queryTrigger (pyNormalize "What medicine do I take now?") = true ∧
    get_todays_doses stAB "u1" nowMon = .ok [entryA, entryB] ∧
    firstMin (fun a b => minutesFromNow nowMon a < minutesFromNow nowMon b)
      ([entryA, entryB].filter isActive) = some entryA ∧
    voice_command stAB "What medicine do I take now?" "u1" nowMon =
      .ok (.medTime "100 mg" "Aspirin", stAB) :=
  ⟨rfl, rfl, rfl,
    c4_query_names_nearest stAB "What medicine do I take now?" "u1" nowMon
      [entryA, entryB] entryA rfl rfl rfl⟩

/-- Claim C8: a reminder command that finds no pending or snoozed dose is
confirmed verbally but performs no store write — the handler returns with
the store exactly as it was. -/
theorem c8_reminder_empty_no_write (st : Store) (text u : String) (now : PyDateTime)
    (ds : List DueEntry)
    (hq : queryTrigger (pyNormalize text) = false)
    (hr : remindTrigger (pyNormalize text) = true)
    (hok : get_todays_doses st u now = .ok ds)
    (hp : ds.filter isActive = []) :
    voice_command st text u now =
      .ok (.remindConfirmNothing (extractMinutes (pyNormalize text)), st) := by
  unfold voice_command
  rw [if_neg (by rw [hq]; exact Bool.false_ne_true), if_pos hr, hok]
  dsimp only
  rw [hp]

/-- Claim C8, witness: "Remind me in 30 minutes" with no doses at all
confirms a 30-minute reminder and leaves the store untouched. -/
theorem c8_reminder_empty_no_write_witness :
    queryTrigger (pyNormalize "Remind me in 30 minutes") = false ∧
    remindTrigger (pyNormalize "Remind me in 30 minutes") = true ∧
    get_todays_doses stEmpty "u1" nowMon = .ok [] ∧
    voice_command stEmpty "Remind me in 30 minutes" "u1" nowMon =
      .ok (.remindConfirmNothing 30, stEmpty) :=
  ⟨rfl, rfl, rfl,
    c8_reminder_empty_no_write stEmpty "Remind me in 30 minutes" "u1" nowMon [] rfl rfl rfl rfl⟩

/-- Claim C2, counterexample: with an 08:00 dose (240 minutes away) and a
12:05 dose (5 minutes away) both pending at 12:00, the nearest entry is
the 12:05 Yasmin dose, yet "remind me in 10 minutes" writes its snoozed
DoseEvent under the 08:00 Xarelto key — the reminder intent does NOT use
the query intent's nearest-selection rule. -/
theorem c2_reminder_not_nearest :
    get_todays_doses stXY "u1" nowMon = .ok [entryX, entryY] ∧
    firstMin (fun a b => minutesFromNow nowMon a < minutesFromNow nowMon b)
      ([entryX, entryY].filter isActive) = some entryY ∧
    entryY.medication_id = "Y" ∧
    voice_command stXY "remind me in 10 minutes" "u1" nowMon =
      .ok (.remindConfirm 10, { meds := stXY.meds, logs := [logXAfter] }) ∧
    logXAfter.medication_id = "X" ∧
    ("X" : String) ≠ "Y" :=
  ⟨rfl, rfl, rfl, rfl, rfl, by decide⟩

/-- Claim C2, amended: when the reminder intent fires on a nonempty
pending/snoozed list it snoozes the FIRST entry of the chronologically
sorted list (the earliest scheduled instant), not the entry nearest to
`now`, writing status=snoozed and snooze-until = now + extracted minutes
under that first entry's exact (user, medication, scheduled instant)
key. -/
theorem c2_reminder_snoozes_first (st : Store) (text u : String) (now : PyDateTime)
    (ds : List DueEntry) (top : DueEntry) (rest : List DueEntry)
    (hq : queryTrigger (pyNormalize text) = false)
    (hr : remindTrigger (pyNormalize text) = true)
    (hok : get_todays_doses st u now = .ok ds)
    (hp : ds.filter isActive = top :: rest) :
    voice_command st text u now = .ok (.remindConfirm (extractMinutes (pyNormalize text)),
      { st with logs := (applySnooze st.logs u top.medication_id top.scheduled_at
          (pyAddMinutes now (extractMinutes (pyNormalize text))) now) }) := by
  unfold voice_command
  rw [if_neg (by rw [hq]; exact Bool.false_ne_true), if_pos hr, hok]
  dsimp only
  rw [hp]

/-- Claim C2 (amended), witness: the concrete reminder writes the snooze
under the chronologically first entry's key. -/
theorem c2_reminder_snoozes_first_witness :
    queryTrigger (pyNormalize "remind me in 10 minutes") = false ∧
    remindTrigger (pyNormalize "remind me in 10 minutes") = true ∧
    get_todays_doses stXY "u1" nowMon = .ok [entryX, entryY] ∧
    [entryX, entryY].filter isActive = entryX :: [entryY] ∧
    voice_command stXY "remind me in 10 minutes" "u1" nowMon =
      .ok (.remindConfirm 10,
        { stXY with logs := (applySnooze stXY.logs "u1" entryX.medication_id entryX.scheduled_at
            (pyAddMinutes nowMon 10) nowMon) }) :=
  ⟨rfl, rfl, rfl, rfl,
    c2_reminder_snoozes_first stXY "remind me in 10 minutes" "u1" nowMon
      [entryX, entryY] entryX [entryY] rfl rfl rfl rfl⟩

/-- Claim C5: a dose instance with no stored DoseEvent under its exact key
reports status "pending"; after Snooze on that exact key with minutes=15
at instant `now2`, the stored event carries status "snoozed" with
snooze-until = now2 + 15 minutes (also echoed in the response), and the
aggregator re-run reports the same list with that entry's status now
"snoozed" under the unchanged key. -/
theorem c5_snooze_roundtrip (st : Store) (u : String) (now now2 : PyDateTime)
    (ds : List DueEntry) (d : DueEntry)
    (hok : get_todays_doses st u now = .ok ds) (hmem : d ∈ ds)
    (hnone : st.logs.find? (keyMatch u d.medication_id d.scheduled_at) = none) :
    d.status = "pending" ∧
    ((snooze st u d.medication_id d.scheduled_at 15 now2).1.logs.find?
        (keyMatch u d.medication_id d.scheduled_at) =
      some { user_id := u, medication_id := d.medication_id, scheduled_at := d.scheduled_at,
             status := "snoozed", taken_at := none,
             snooze_until := some (pyAddMinutes now2 15), updated_at := some now2 }) ∧
    (snooze st u d.medication_id d.scheduled_at 15 now2).2 = pyAddMinutes now2 15 ∧
    (get_todays_doses (snooze st u d.medication_id d.scheduled_at 15 now2).1 u now =
      .ok (ds.map (restatus (snooze st u d.medication_id d.scheduled_at 15 now2).1.logs u))) ∧
    restatus (snooze st u d.medication_id d.scheduled_at 15 now2).1.logs u d ∈
      ds.map (restatus (snooze st u d.medication_id d.scheduled_at 15 now2).1.logs u) ∧
    (restatus (snooze st u d.medication_id d.scheduled_at 15 now2).1.logs u d).medication_id
      = d.medication_id ∧
    (restatus (snooze st u d.medication_id d.scheduled_at 15 now2).1.logs u d).scheduled_at
      = d.scheduled_at ∧
    (restatus (snooze st u d.medication_id d.scheduled_at 15 now2).1.logs u d).status
      = "snoozed" := by
  have hstatus := get_todays_status st u now ds hok d hmem
  have hfound := find?_applySnooze st.logs u d.medication_id d.scheduled_at
    (pyAddMinutes now2 15) now2
  rw [hnone] at hfound
  refine ⟨?_, ?_, rfl, ?_, ?_, rfl, rfl, ?_⟩
  · rw [hstatus]
    unfold statusOf
    rw [hnone]
  · exact hfound
  · show get_todays_doses { st with logs := (applySnooze st.logs u d.medication_id
        d.scheduled_at (pyAddMinutes now2 15) now2) } u now = _
    rw [get_todays_restatus st
      (applySnooze st.logs u d.medication_id d.scheduled_at (pyAddMinutes now2 15) now2) u now,
      hok]
    rfl
  · exact List.mem_map_of_mem _ hmem
  · show statusOf (applySnooze st.logs u d.medication_id d.scheduled_at
        (pyAddMinutes now2 15) now2) u d.medication_id d.scheduled_at = "snoozed"
    unfold statusOf
    rw [hfound]
    rfl

/-- Claim C5, witness: the Aspirin dose starts pending; Snooze(key, 15) at
`now2Ex` stores snoozed with snooze-until = now2Ex + 15 minutes and the
aggregator then reports it snoozed. -/
theorem c5_snooze_roundtrip_witness :
    get_todays_doses stA1 "u1" nowMon = .ok [entryA] ∧
    stA1.logs.find? (keyMatch "u1" entryA.medication_id entryA.scheduled_at) = none ∧
    entryA.status = "pending" ∧
    (snooze stA1 "u1" entryA.medication_id entryA.scheduled_at 15 now2Ex).2
      = pyAddMinutes now2Ex 15 ∧
    (restatus (snooze stA1 "u1" entryA.medication_id entryA.scheduled_at 15 now2Ex).1.logs
      "u1" entryA).status = "snoozed" :=
  ⟨rfl, rfl,
    (c5_snooze_roundtrip stA1 "u1" nowMon now2Ex [entryA] entryA rfl
      (List.mem_singleton.mpr rfl) rfl).1,
    (c5_snooze_roundtrip stA1 "u1" nowMon now2Ex [entryA] entryA rfl
      (List.mem_singleton.mpr rfl) rfl).2.2.1,
    (c5_snooze_roundtrip stA1 "u1" nowMon now2Ex [entryA] entryA rfl
      (List.mem_singleton.mpr rfl) rfl).2.2.2.2.2.2.2⟩

end SmartPill
